import Mathlib

/-!
Verification of the Pinduoduo catalog scraper (`server/prismaClient.js`).

This file gives a shallow embedding of the pure/decidable cores of the
scraper — the price normalizer, the translation batch skip/reassembly
logic, the goods_id based deduplication, the variant-option label filter,
and the state transitions of the block-detection flag and the main
traversal loop — and proves or refutes the specification's claims about
them.  JavaScript numbers are modelled as exact rationals (`ℚ`);
remote-service (OpenAI) calls, browser actions and database queries are
external collaborators and are modelled as oracle inputs passed to the
embedded functions.
-/

namespace Scraper

/-! ## Price normalizer (prismaClient.js, `calculateFinalPrice`, lines 1054-1062)

```js
const calculateFinalPrice = (base) => {
    const price = Number(base) || 0;
    if (price <= 0) return 0;
    const priceWithMargin = price * 1.15;
    const final = Math.ceil(priceWithMargin / 10) * 10;
    return final;
};
```
The float literal `1.15` is modelled as the exact rational `115/100`. -/
def calculateFinalPrice (base : ℚ) : ℚ :=
  if base ≤ 0 then 0 else ((⌈base * (115 / 100) / 10⌉ : ℤ) : ℚ) * 10

/-! ## General price selection (prismaClient.js, `finalGeneralPrice`, lines 2247-2256)

```js
const finalGeneralPrice = (() => {
    if (basicData.mainPagePrice && basicData.mainPagePrice > 0) {
         return basicData.mainPagePrice * 200;
    }
    const validPrices = translatedOptions.map(o => o.price).filter(p => p > 0);
    return validPrices.length > 0 ? Math.min(...validPrices) : 0;
})();
```
`mainPagePrice` may be absent (`undefined`), hence `Option ℚ`; JS
truthiness `p && p > 0` is equivalent to `0 < p` for numbers. -/

/-- The JS spread `Math.min(...)` over a non-empty list; the `[]` case is unreachable
because the source guards with `validPrices.length > 0`. -/
def minList : List ℚ → ℚ
  | [] => 0
  | [x] => x
  | x :: y :: t => min x (minList (y :: t))

def finalGeneralPrice (mainPagePrice : Option ℚ) (optionPrices : List ℚ) : ℚ :=
  match mainPagePrice with
  | some p =>
      if 0 < p then p * 200
      else
        let validPrices := optionPrices.filter (fun q => 0 < q)
        if validPrices.length > 0 then minList validPrices else 0
  | none =>
      let validPrices := optionPrices.filter (fun q => 0 < q)
      if validPrices.length > 0 then minList validPrices else 0

/-! ## Persisted price fields (prismaClient.js, `prisma.product.create`, lines 1121-1149)

```js
price: calculateFinalPrice(productData.general_price),
basePriceIQD: parseFloat(productData.general_price) || 0,
```
`general_price` is already a number, so `parseFloat(x) || 0` is the
identity except that it maps `0` to `0`. -/
structure PersistedPrices where
  price : ℚ
  basePriceIQD : ℚ
  deriving DecidableEq, Repr

def persistedPrices (generalPrice : ℚ) : PersistedPrices :=
  { price := calculateFinalPrice generalPrice
    basePriceIQD := generalPrice }

/-! ## Translation pipeline (prismaClient.js, `translateText` lines 529-647,
`batchTranslate` lines 650-773)

The remote completion service is an external collaborator; each call to it
is modelled by an oracle value: `some s` when the `tryTranslate`/`tryBatch`
helper eventually returns content `s`, and `none` when all of its bounded
attempts fail (the helper throws).  Everything around the calls — the skip
heuristic, the primary/backup/per-item fallback chain, and the
reconstruction of the full-length result — is embedded from the source. -/

/-- The character class of the JS regex `/[؀-ۿ]/` (Arabic block);
`.test(text)` is `containsArabic`. -/
def isArabicChar (c : Char) : Bool :=
  decide (0x600 ≤ c.toNat) && decide (c.toNat ≤ 0x6FF)

def containsArabic (s : String) : Bool := s.toList.any isArabicChar

/-- In JS, `!text.trim()` holds iff the trimmed string is empty, i.e. iff every character
is whitespace. -/
def isBlank (s : String) : Bool := s.toList.all Char.isWhitespace

/-- Skip heuristic of `batchTranslate` (line 657) and `translateText`
(lines 530-532):
```js
skip: !text || !text.trim() || (/[؀-ۿ]/.test(text) && text.length > text.length * 0.5)
```
The comparison `text.length > text.length * 0.5` is modelled with both
sides doubled (`2 * len > len`), which is exact — halving a length is
exact in binary floating point. -/
def skipHeuristic (t : String) : Bool :=
  t.isEmpty || isBlank t || (containsArabic t && decide (2 * t.length > t.length))

/-- Embedding of `translateText(text, context, ...)` (lines 529-647) with the two
`tryTranslate` calls abstracted by oracles.  Control flow from the source:

```js
if (!text || !text.trim()) return '';
if (/[؀-ۿ]/.test(text) && text.length > text.length * 0.5) return text;
...
try { return await tryTranslate(targetModel); }
catch (error) {
    try { return await tryTranslate(backupModel); }
    catch (backupError) {
        if (context === 'review') { return text; }
        return text;
    }
}
```
Both branches of the final catch return `text`, so the context does not
change the outcome and is omitted.  Every path returns; nothing escapes
to the caller. -/
def translateText (text : String) (oPrimary oBackup : Option String) : String :=
  if text.isEmpty || isBlank text then ""
  else if containsArabic text && decide (2 * text.length > text.length) then text
  else
    match oPrimary with
    | some s => s
    | none =>
        match oBackup with
        | some s => s
        | none => text

/-- Oracle bundle for one `batchTranslate` call: the outcomes of
`tryBatch(targetModel)`, `tryBatch(backupModel)`, and — for the final
per-item fallback — of `translateText`'s two `tryTranslate` tiers at each
position. -/
structure AiOracle where
  batchPrimary : Option (List String)
  batchBackup : Option (List String)
  itemPrimary : Nat → Option String
  itemBackup : Nat → Option String

/-- One slot of the reconstruction loop (lines 745-751):
```js
const translated = (translatedValues && translatedValues[translateIdx]) ? translatedValues[translateIdx] : item.text;
finalResults[i] = (translated && translated.trim()) ? translated : item.text;
```
`translatedValues[idx]` is truthy iff the index is in range and the entry
is a non-empty string. -/
def pickTranslated (translatedValues : List String) (idx : Nat) (orig : String) : String :=
  let translated :=
    match translatedValues.get? idx with
    | some s => if s.isEmpty then orig else s
    | none => orig
  if translated.isEmpty || isBlank translated then orig else translated

/-- The reconstruction pass (lines 742-752): start from a copy of `texts`,
walk it in order, and replace each non-skipped position by the next entry
of `translatedValues` (falling back to the original on a missing/empty
entry), threading `translateIdx`. -/
def reconstruct (texts : List String) (translatedValues : List String)
    (translateIdx : Nat) : List String :=
  match texts with
  | [] => []
  | t :: ts =>
      if skipHeuristic t then t :: reconstruct ts translatedValues translateIdx
      else pickTranslated translatedValues translateIdx t ::
        reconstruct ts translatedValues (translateIdx + 1)

/-- The per-item last-resort fallback (line 770):
`Promise.all(texts.map(t => translateText(t, context, '', targetModel, backupModel)))`,
with the position made explicit so each item gets its own oracle outcomes. -/
def itemFallback (oracle : AiOracle) (i : Nat) : List String → List String
  | [] => []
  | t :: ts =>
      translateText t (oracle.itemPrimary i) (oracle.itemBackup i) ::
        itemFallback oracle (i + 1) ts

/-- The exact payload handed to the remote service (line 698):
`JSON.stringify(toTranslate.map(item => item.text))` where
`toTranslate = needsTranslation.filter(item => !item.skip)`.  When this
list is empty no request is issued at all (line 661). -/
def sentItems (texts : List String) : List String :=
  texts.filter (fun t => !skipHeuristic t)

/-- The filtered-batch index belonging to position `i`: the number of
non-skipped items among the first `i`, i.e. the value `translateIdx` has
reached when the reconstruction loop arrives at position `i`, and hence
the index into the service's response that position `i` reads. -/
def prevSent (texts : List String) (i : Nat) : Nat :=
  ((texts.take i).filter (fun t => !skipHeuristic t)).length

/-- Embedding of `batchTranslate(texts, context, targetModel, backupModel)`
(lines 650-773) over the oracle model:

```js
if (!texts || texts.length === 0) return [];
const needsTranslation = texts.map((text, index) => ({ text: text || '', index, skip: ... }));
const toTranslate = needsTranslation.filter(item => !item.skip);
if (toTranslate.length === 0) return texts;
try { const translatedValues = await tryBatch(targetModel); ...reconstruct... }
catch (error) {
    try { const translatedValues = await tryBatch(backupModel); ...reconstruct... }
    catch (backupError) { return Promise.all(texts.map(t => translateText(...))); }
}
``` -/
def batchTranslate (texts : List String) (oracle : AiOracle) : List String :=
  if texts.length = 0 then []
  else if (sentItems texts).length = 0 then texts
  else
    match oracle.batchPrimary with
    | some translatedValues => reconstruct texts translatedValues 0
    | none =>
        match oracle.batchBackup with
        | some translatedValues => reconstruct texts translatedValues 0
        | none => itemFallback oracle 0 texts

/-- The sending rule as the specification words it (claim C4): an item is
sent iff it is non-empty and does not have a majority of its characters
in the Arabic script.  This definition follows the spec's words, not the
source; it exists only to be compared with `sentItems`. -/
def specSentRule (texts : List String) : List String :=
  texts.filter (fun t =>
    !t.isEmpty && !decide (2 * (t.toList.filter isArabicChar).length > t.length))

/-! ## goods_id extraction and deduplication
(prismaClient.js, `getGoodsIdFromUrl` lines 909-919, `scrapeProduct`
duplicate pre-check lines 1478-1504, `saveProductToDb` duplicate check
lines 962-986 and create lines 1121-1149)

```js
const getGoodsIdFromUrl = (url) => {
    if (!url) return null;
    try {
        const parsed = new URL(String(url));
        const goodsId = parsed.searchParams.get('goods_id');
        if (!goodsId) return null;
        return { goodsId, parsed };
    } catch (e) { return null; }
};
```
The platform `URL` class is a collaborator; its query handling is
embedded directly: the query string is the part of the URL after the
first `?` that precedes the first `#`, split on `&`, each parameter
split at its first `=`; `searchParams.get` returns the value of the
first parameter whose key matches (and `""`, which is falsy, when that
parameter has no `=` or an empty value).  Percent-decoding is not
modelled; `goods_id` values in this system are plain digit strings. -/

/-- Exact JS `String.prototype.includes` / Prisma `contains` test:
`needle` occurs contiguously in `hay`. -/
def isPrefixList : List Char → List Char → Bool
  | [], _ => true
  | _ :: _, [] => false
  | a :: as, b :: bs => a = b && isPrefixList as bs

def containsSeg : List Char → List Char → Bool
  | [], needle => needle.isEmpty
  | hay@(_ :: t), needle => isPrefixList needle hay || containsSeg t needle

def strContains (hay needle : String) : Bool := containsSeg hay.toList needle.toList

/-- The query portion of a URL: chars after the first `?` that precedes
the first `#`; `none` when the URL has no query. -/
def afterQuestion : List Char → Option (List Char)
  | [] => none
  | c :: t => if c = '?' then some t else afterQuestion t

/-- Split a query string on `&` into its parameter substrings. -/
def splitAmp : List Char → List (List Char)
  | [] => [[]]
  | c :: rest =>
      let r := splitAmp rest
      if c = '&' then [] :: r
      else
        match r with
        | [] => [[c]]
        | h :: t => (c :: h) :: t

/-- A parameter's key: the characters before its first `=`. -/
def keyOf (p : List Char) : List Char := p.takeWhile (fun c => c ≠ '=')

/-- A parameter's value: the characters after its first `=` (empty when
there is no `=`, matching `searchParams.get` returning `""`). -/
def valOf (p : List Char) : List Char :=
  match p.dropWhile (fun c => c ≠ '=') with
  | [] => []
  | _ :: v => v

/-- The value of `searchParams.get('goods_id')` combined with the `if (!goodsId) return null`
falsiness check: the first `goods_id` parameter's value, `none` when it is
absent or empty. -/
def findGoodsId : List (List Char) → Option (List Char)
  | [] => none
  | p :: ps =>
      if keyOf p = "goods_id".toList then
        match valOf p with
        | [] => none
        | v => some v
      else findGoodsId ps

def getGoodsIdFromUrl (url : String) : Option String :=
  if url.isEmpty then none
  else
    match afterQuestion (url.toList.takeWhile (fun c => c ≠ '#')) with
    | none => none
    | some q => (findGoodsId (splitAmp q)).map (fun v => String.mk v)

/-- The duplicate pre-check of `scrapeProduct` (lines 1478-1504): when the
URL yields a goods_id and some persisted record's `purchaseUrl` contains
`goods_id=<id>`, the product is skipped (`return null`) with no error. -/
def goodsIdDuplicate (db : List String) (url : String) : Bool :=
  match getGoodsIdFromUrl url with
  | none => false
  | some gid => db.any (fun u => strContains u ("goods_id=" ++ gid))

/-- Embedding of `saveProductToDb` as a transformation of the persisted `purchaseUrl`
set (lines 957-986 and 1121-1149): missing URL → no write; exact
`purchaseUrl` match (`findFirst`) → silent skip; otherwise one record is
created whose `purchaseUrl` is the snapshot's URL. -/
def saveProductToDb (db : List String) (url : String) : List String :=
  if url.isEmpty then db
  else if db.any (fun u => u = url) then db
  else db ++ [url]

/-- One product visit of the main loop (lines 2781-2794):
`scrapeProduct` runs its goods_id duplicate pre-check and, on a
non-duplicate, extraction may still fail (`extractOk = false`, the
`pData` null path); only a successful snapshot reaches
`saveProductToDb`. -/
def processProduct (db : List String) (url : String) (extractOk : Bool) :
    List String :=
  if goodsIdDuplicate db url then db
  else if extractOk then saveProductToDb db url
  else db

/-! ## Variant-option label filter (prismaClient.js, lines 1833-1858)

```js
const hasChinese = /[一-龥]/.test(colorName);
if (colorName.length <= 1 && !hasChinese) { return; }
if (!colorName || colorName.length === 0) return;
if (options.some(o => o.color === colorName)) { return; }
options.push({ color: colorName, ... });
```
The input here is the cleaned
label `colorName` produced by lines 1821-1831; the claims quantify over
cleaned labels, so the collection pass is embedded as a fold over them. -/

def isChineseChar (c : Char) : Bool :=
  decide (0x4e00 ≤ c.toNat) && decide (c.toNat ≤ 0x9fa5)

def hasChinese (s : String) : Bool := s.toList.any isChineseChar

/-- Whether a cleaned label passes the validity filter and the
against-the-accumulated-list dedup check of one `forEach` step. -/
def optionStep (options : List String) (colorName : String) : List String :=
  if colorName.length ≤ 1 && !hasChinese colorName then options
  else if colorName.isEmpty then options
  else if options.any (fun o => o = colorName) then options
  else options ++ [colorName]

/-- The whole option-collection pass over the cleaned labels, in document
order. -/
def collectOptions (labels : List String) : List String :=
  labels.foldl optionStep []

/-! ## Block-detection flag and main-loop recovery
(prismaClient.js: `hasPageError` line 226, `pageerror` handler lines
2449-2454, `framenavigated` handler lines 2464-2482, `response` handler
lines 2484-2493, `rotateCookies` lines 1257-1266, loop head lines
2545-2560) -/

/-- The process-wide mutable state read by the event handlers and the
main loop. -/
structure PageState where
  hasPageError : Bool
  rateLimitHits : Nat
  rateLimitBackoffMs : Nat
  deriving DecidableEq, Repr

/-- Handler `page.on('pageerror', ...)` (lines 2449-2454): the flag is set when
the page-level error message contains `"424"` or `"403"`. -/
def onPageError (st : PageState) (errText : String) : PageState :=
  if strContains errText "424" || strContains errText "403" then
    { st with hasPageError := true }
  else st

/-- Handler `page.on('framenavigated', ...)` (lines 2464-2482): the flag is set
when the top frame's address contains a verification/punish/captcha
keyword. -/
def onFrameNavigated (st : PageState) (frameUrl : String) : PageState :=
  if strContains frameUrl "verification" || strContains frameUrl "punish" ||
      strContains frameUrl "captcha" then
    { st with hasPageError := true }
  else st

/-- Handler `page.on('response', ...)` (lines 2484-2493): a 429 response only
feeds the rate-limit counters.
```js
if (res.status() === 429) {
    rateLimitHits += 1;
    rateLimitBackoffMs = Math.min(rateLimitBackoffMs > 0 ? rateLimitBackoffMs * 2 : 60000, 300000);
    ...
}
``` -/
def onResponse (st : PageState) (status : Nat) : PageState :=
  if status = 429 then
    { st with
      rateLimitHits := st.rateLimitHits + 1
      rateLimitBackoffMs :=
        min (if st.rateLimitBackoffMs > 0 then st.rateLimitBackoffMs * 2 else 60000)
          300000 }
  else st

/-- Observable actions of one main-loop iteration prefix. -/
inductive LoopAct
  | loadCookies
  | navigateRoot
  | extractAttempt
  deriving DecidableEq, Repr

/-- The head of each `while (isRunning)` iteration (lines 2545-2552)
together with `rotateCookies` (lines 1257-1266): when `hasPageError` is
set, the iteration loads a fresh random cookie profile, clears the flag,
force-navigates to `CATEGORY_URL`, and `continue`s — no extraction is
attempted in that iteration.  Otherwise the iteration proceeds toward
extraction. -/
def loopIterationHead (st : PageState) : PageState × List LoopAct :=
  if st.hasPageError then
    ({ st with hasPageError := false }, [LoopAct.loadCookies, LoopAct.navigateRoot])
  else (st, [LoopAct.extractAttempt])

/-! ## Loop termination and the allow_list error
(prismaClient.js: SIGINT handler lines 404-408, iteration catch lines
2861-2869, product-limit check lines 2800-2808, `saveProductToDb` outer
catch lines 943-1198, `scrapeProduct` duplicate-check rethrow lines
1496-1503) -/

/-- What `saveProductToDb`'s inner code does before the outer catch:
```js
try { existingProduct = await prisma.product.findFirst(...); }
catch (dbErr) { ...; throw dbErr; }            // line 980
if (existingProduct) { return; }
try { newProduct = await prisma.product.create(...); }
catch (createErr) {
    if (createErr.message.includes('allow_list')) { throw createErr; }  // line 1155
    return;
}
```
`dupQuery` is the `findFirst` outcome (`error msg` on a database error),
`createRes` the `create` outcome. -/
def saveProductToDbInner (dupQuery : Except String (Option Nat))
    (createRes : Except String Nat) : Except String Unit :=
  match dupQuery with
  | .error msg => .error msg
  | .ok (some _) => .ok ()
  | .ok none =>
      match createRes with
      | .error msg => if strContains msg "allow_list" then .error msg else .ok ()
      | .ok _ => .ok ()

/-- What `saveProductToDb`'s caller observes: the whole body is wrapped
in `try { ... } catch (e) { console.error('Save Error:', e.message); }`
(lines 944 and 1196-1198), so every inner throw — including the
allow_list rethrows — is logged and swallowed. -/
def saveProductToDbResult (dupQuery : Except String (Option Nat))
    (createRes : Except String Nat) : Except String Unit :=
  match saveProductToDbInner dupQuery createRes with
  | .error _ => .ok ()
  | .ok () => .ok ()

/-- Main-loop control state. -/
structure LoopState where
  isRunning : Bool
  productsScrapedCount : Nat
  consecutiveFailures : Nat
  deriving DecidableEq, Repr

def PRODUCT_LIMIT : Nat := 45

/-- What one iteration's body produced: an exception that reached the
iteration `catch` (line 2861), a successfully processed product
(`scraped = true`), or a miss. -/
inductive IterOutcome
  | errorThrown (msg : String)
  | scraped
  | notScraped
  deriving DecidableEq, Repr

/-- One iteration of `while (isRunning)` (lines 2545-2876), restricted to
its control-flow effects.  `sigint` records whether the operator
interrupt fired during the iteration (the SIGINT handler sets
`isRunning = false`, checked at line 2875). -/
def loopIteration (st : LoopState) (outcome : IterOutcome) (sigint : Bool) :
    LoopState :=
  let st :=
    match outcome with
    | .errorThrown _ =>
        { st with
          consecutiveFailures :=
            if st.consecutiveFailures + 1 > 5 then 0 else st.consecutiveFailures + 1 }
    | .scraped =>
        if st.productsScrapedCount + 1 ≥ PRODUCT_LIMIT then
          { st with productsScrapedCount := st.productsScrapedCount + 1, isRunning := false }
        else { st with productsScrapedCount := st.productsScrapedCount + 1 }
    | .notScraped => st
  if sigint then { st with isRunning := false } else st

end Scraper

namespace Scraper

/-! ### Lemmas about `minList` -/

theorem minList_mem : ∀ (l : List ℚ), l ≠ [] → minList l ∈ l
  | [x], _ => by simp [minList]
  | x :: y :: t, _ => by
      rcases min_cases x (minList (y :: t)) with ⟨h, _⟩ | ⟨h, _⟩
      · simp [minList, h]
      · have := minList_mem (y :: t) (by simp)
        simp only [minList, h]
        exact List.mem_cons_of_mem _ this

theorem minList_le : ∀ (l : List ℚ), ∀ q ∈ l, minList l ≤ q
  | [x], q, hq => by
      simp at hq; simp [minList, hq]
  | x :: y :: t, q, hq => by
      rcases List.mem_cons.mp hq with h | h
      · simp [minList, h]
      · have := minList_le (y :: t) q h
        simp only [minList]
        exact le_trans (min_le_right _ _) this

/-! ### Claim theorems: prices -/

/-- C1: for a snapshot whose extracted main-page price is 10 CNY, the
persisted base price is 10 × 200 = 2000 IQD and the persisted final
price is ⌈2000 · 1.15 / 10⌉ · 10 = 2300 IQD, whatever the variant-option
prices are. -/
theorem c1_mainPagePrice_ten_persists_2000_2300 (opts : List ℚ) :
    finalGeneralPrice (some 10) opts = 2000 ∧
    persistedPrices (finalGeneralPrice (some 10) opts) =
      { price := 2300, basePriceIQD := 2000 } := by
  have h : finalGeneralPrice (some 10) opts = 2000 := by
    simp only [finalGeneralPrice]
    norm_num
  refine ⟨h, ?_⟩
  rw [h]
  have hp : calculateFinalPrice 2000 = 2300 := by norm_num [calculateFinalPrice]
  simp [persistedPrices, hp]

/-- C2: for every positive base price, `calculateFinalPrice` returns a
positive multiple of 10 that is at least the base price; for every base
price ≤ 0 it returns 0. -/
theorem c2_calculateFinalPrice_spec (base : ℚ) :
    (0 < base →
      0 < calculateFinalPrice base ∧
      (∃ k : ℤ, calculateFinalPrice base = 10 * k) ∧
      base ≤ calculateFinalPrice base) ∧
    (base ≤ 0 → calculateFinalPrice base = 0) := by
  constructor
  · intro h
    have hif : calculateFinalPrice base =
        ((⌈base * (115 / 100) / 10⌉ : ℤ) : ℚ) * 10 := by
      unfold calculateFinalPrice
      rw [if_neg (not_le.mpr h)]
    have hpos : (0 : ℚ) < base * (115 / 100) / 10 := by positivity
    have hceil : 0 < ⌈base * (115 / 100) / 10⌉ := Int.ceil_pos.mpr hpos
    have h1 : (1 : ℚ) ≤ (⌈base * (115 / 100) / 10⌉ : ℚ) := by exact_mod_cast hceil
    have hle : base * (115 / 100) / 10 ≤ (⌈base * (115 / 100) / 10⌉ : ℚ) :=
      Int.le_ceil _
    refine ⟨?_, ⟨⌈base * (115 / 100) / 10⌉, by rw [hif]; ring⟩, ?_⟩
    · rw [hif]; nlinarith
    · rw [hif]; nlinarith
  · intro h
    unfold calculateFinalPrice
    rw [if_pos h]

/-- Witness for C2 at base prices 3 and -2: `calculateFinalPrice 3 = 10`
is positive, a multiple of 10 and ≥ 3; `calculateFinalPrice (-2) = 0`. -/
theorem c2_calculateFinalPrice_spec_witness :
    ((0 : ℚ) < 3 ∧
      (0 < calculateFinalPrice 3 ∧
        (∃ k : ℤ, calculateFinalPrice 3 = 10 * k) ∧
        (3 : ℚ) ≤ calculateFinalPrice 3)) ∧
    ((-2 : ℚ) ≤ 0 ∧ calculateFinalPrice (-2) = 0) :=
  ⟨⟨by norm_num, (c2_calculateFinalPrice_spec 3).1 (by norm_num)⟩,
    ⟨by norm_num, (c2_calculateFinalPrice_spec (-2)).2 (by norm_num)⟩⟩

/-- C10: the general price follows a fixed priority rule — a positive
main-page price wins and is multiplied by 200; otherwise the minimum of
the positive option prices; otherwise 0. -/
theorem c10_finalGeneralPrice_priority (mp : Option ℚ) (opts : List ℚ) :
    (∀ p : ℚ, mp = some p → 0 < p → finalGeneralPrice mp opts = p * 200) ∧
    ((mp = none ∨ ∃ p : ℚ, mp = some p ∧ p ≤ 0) →
      (opts.filter (fun q => 0 < q) ≠ [] →
        finalGeneralPrice mp opts ∈ opts.filter (fun q => 0 < q) ∧
        ∀ q ∈ opts.filter (fun q => 0 < q), finalGeneralPrice mp opts ≤ q) ∧
      (opts.filter (fun q => 0 < q) = [] → finalGeneralPrice mp opts = 0)) := by
  constructor
  · rintro p rfl hp
    simp [finalGeneralPrice, if_pos hp]
  · intro hmp
    have hval : finalGeneralPrice mp opts =
        (if (opts.filter (fun q => 0 < q)).length > 0 then
          minList (opts.filter (fun q => 0 < q)) else 0) := by
      rcases hmp with rfl | ⟨p, rfl, hple⟩
      · rfl
      · simp [finalGeneralPrice, if_neg (not_lt.mpr hple)]
    constructor
    · intro hne
      have hlen : (opts.filter (fun q => 0 < q)).length > 0 :=
        List.length_pos.mpr hne
      rw [hval, if_pos hlen]
      exact ⟨minList_mem _ hne, minList_le _⟩
    · intro hnil
      rw [hval, hnil]
      simp

/-! ### Lemmas about the translation pipeline -/

theorem reconstruct_length :
    ∀ (texts tv : List String) (idx : Nat),
      (reconstruct texts tv idx).length = texts.length
  | [], _, _ => rfl
  | t :: ts, tv, idx => by
      unfold reconstruct
      split
      · simp [reconstruct_length ts tv idx]
      · simp [reconstruct_length ts tv (idx + 1)]

theorem itemFallback_length (o : AiOracle) :
    ∀ (i : Nat) (texts : List String),
      (itemFallback o i texts).length = texts.length
  | _, [] => rfl
  | i, _ :: ts => by
      unfold itemFallback
      simp [itemFallback_length o (i + 1) ts]

/-- A skipped position of the reconstruction pass keeps its original
string, whatever the translated values are. -/
theorem reconstruct_get?_of_skip :
    ∀ (texts tv : List String) (idx i : Nat) (t : String),
      texts.get? i = some t → skipHeuristic t = true →
      (reconstruct texts tv idx).get? i = some t
  | [], _, _, i, t, h, _ => by simp at h
  | x :: ts, tv, idx, 0, t, h, hskip => by
      simp only [List.get?] at h
      injection h with h
      subst h
      unfold reconstruct
      rw [if_pos hskip]
      rfl
  | x :: ts, tv, idx, i + 1, t, h, hskip => by
      simp only [List.get?] at h
      unfold reconstruct
      split
      · exact reconstruct_get?_of_skip ts tv idx i t h hskip
      · exact reconstruct_get?_of_skip ts tv (idx + 1) i t h hskip

/-- In the per-item fallback with an all-failing oracle, every position is
`translateText` of its original with both tiers failing. -/
theorem itemFallback_get?_none (o : AiOracle)
    (hitems : ∀ j, o.itemPrimary j = none ∧ o.itemBackup j = none) :
    ∀ (texts : List String) (j i : Nat) (t : String),
      texts.get? i = some t →
      (itemFallback o j texts).get? i = some (translateText t none none)
  | [], _, i, t, h => by simp at h
  | x :: ts, j, 0, t, h => by
      simp only [List.get?] at h
      injection h with h
      subst h
      unfold itemFallback
      rw [(hitems j).1, (hitems j).2]
      rfl
  | x :: ts, j, i + 1, t, h => by
      simp only [List.get?] at h
      unfold itemFallback
      exact itemFallback_get?_none o hitems ts (j + 1) i t h

theorem isEmpty_isBlank {t : String} (h : t.isEmpty = true) : isBlank t = true := by
  rw [(String.isEmpty_iff t).mp h]
  rfl

/-- If a string contains an Arabic character it is non-empty, so the
`length > length * 0.5` conjunct is automatically satisfied: the skip
heuristic collapses to "blank or contains any Arabic character". -/
theorem skipHeuristic_eq (t : String) :
    skipHeuristic t = (isBlank t || containsArabic t) := by
  unfold skipHeuristic
  cases he : t.isEmpty
  · cases hb : isBlank t
    · cases ha : containsArabic t
      · simp
      · have hne : t.toList ≠ [] := by
          obtain ⟨c, hc, _⟩ := List.any_eq_true.mp ha
          exact List.ne_nil_of_mem hc
        have hlen : 0 < t.length := List.length_pos.mpr hne
        have hdec : decide (2 * t.length > t.length) = true :=
          decide_eq_true (by omega)
        simp [hdec]
    · simp
  · simp [isEmpty_isBlank he]

theorem not_blank_of_not_skip {t : String} (h : skipHeuristic t = false) :
    isBlank t = false := by
  rw [skipHeuristic_eq] at h
  exact (Bool.or_eq_false_iff.mp h).1

/-- Behaviour of `translateText` when both model tiers fail: any non-blank input comes
back unchanged (blank inputs return `""` before any model is consulted). -/
theorem translateText_none_none (t : String) (h : isBlank t = false) :
    translateText t none none = t := by
  have he : t.isEmpty = false := by
    cases ht : t.isEmpty
    · rfl
    · rw [isEmpty_isBlank ht] at h
      exact absurd h (by simp)
  unfold translateText
  rw [he, h]
  rw [if_neg (by simp)]
  split
  · rfl
  · rfl

theorem batchTranslate_length_eq (texts : List String) (o : AiOracle) :
    (batchTranslate texts o).length = texts.length := by
  unfold batchTranslate
  split
  · next h => simp [h]
  · split
    · rfl
    · split
      · exact reconstruct_length texts _ 0
      · split
        · exact reconstruct_length texts _ 0
        · exact itemFallback_length o 0 texts

theorem prevSent_zero (texts : List String) : prevSent texts 0 = 0 := by
  unfold prevSent
  simp

theorem prevSent_cons (t₀ : String) (ts : List String) (i : Nat) :
    prevSent (t₀ :: ts) (i + 1) =
      (if skipHeuristic t₀ then 0 else 1) + prevSent ts i := by
  unfold prevSent
  rw [List.take_succ_cons, List.filter_cons]
  by_cases hs : skipHeuristic t₀ = true
  · simp [hs]
  · simp [hs]
    omega

/-- Each output slot of the reconstruction pass is determined by its own
input slot: the original when skipped, otherwise `pickTranslated` of the
response entry at that slot's filtered index. -/
theorem reconstruct_get?_eq :
    ∀ (texts tv : List String) (idx i : Nat) (t : String),
      texts.get? i = some t →
      (reconstruct texts tv idx).get? i =
        some (if skipHeuristic t then t
          else pickTranslated tv (idx + prevSent texts i) t)
  | [], _, _, i, t, h => by simp at h
  | t₀ :: ts, tv, idx, 0, t, h => by
      simp only [List.get?] at h
      injection h with h
      subst h
      unfold reconstruct
      by_cases hs : skipHeuristic t₀ = true
      · simp [hs]
      · simp [hs, prevSent_zero]
  | t₀ :: ts, tv, idx, i + 1, t, h => by
      simp only [List.get?] at h
      unfold reconstruct
      by_cases hs : skipHeuristic t₀ = true
      · rw [if_pos hs]
        simp only [List.get?]
        rw [reconstruct_get?_eq ts tv idx i t h, prevSent_cons, if_pos hs,
          Nat.zero_add]
      · rw [if_neg hs]
        simp only [List.get?]
        rw [reconstruct_get?_eq ts tv (idx + 1) i t h, prevSent_cons, if_neg hs,
          show idx + 1 + prevSent ts i = idx + (1 + prevSent ts i) by omega]

/-- When the response entry for a slot is missing, empty or blank, the
reconstruction pass substitutes the slot's original text. -/
theorem pickTranslated_fail (tv : List String) (idx : Nat) (t : String)
    (h : tv.get? idx = none ∨ ∃ s, tv.get? idx = some s ∧ isBlank s = true) :
    pickTranslated tv idx t = t := by
  unfold pickTranslated
  rcases h with h | ⟨s, hs, hb⟩
  · simp only [h]
    split
    · rfl
    · rfl
  · simp only [hs]
    by_cases he : s.isEmpty = true
    · simp only [he, if_true]
      split
      · rfl
      · rfl
    · simp only [he, if_false]
      rw [if_pos]
      simp [hb]

/-- Each output slot of the per-item fallback is `translateText` of its
own input slot with that slot's oracle outcomes. -/
theorem itemFallback_get?_eq (o : AiOracle) :
    ∀ (texts : List String) (j i : Nat) (t : String),
      texts.get? i = some t →
      (itemFallback o j texts).get? i =
        some (translateText t (o.itemPrimary (j + i)) (o.itemBackup (j + i)))
  | [], _, i, t, h => by simp at h
  | x :: ts, j, 0, t, h => by
      simp only [List.get?] at h
      injection h with h
      subst h
      simp [itemFallback]
  | x :: ts, j, i + 1, t, h => by
      simp only [List.get?] at h
      unfold itemFallback
      simp only [List.get?]
      rw [itemFallback_get?_eq o ts (j + 1) i t h,
        show j + 1 + i = j + (i + 1) by omega]

theorem skip_all_of_sent_nil {texts : List String} (h : sentItems texts = []) :
    ∀ t ∈ texts, skipHeuristic t = true := by
  intro t ht
  have := List.filter_eq_nil_iff.mp h t ht
  simpa using this

theorem batchTranslate_eq_self (texts : List String) (o : AiOracle)
    (hlen : texts.length ≠ 0) (hsent : (sentItems texts).length = 0) :
    batchTranslate texts o = texts := by
  unfold batchTranslate
  rw [if_neg hlen, if_pos hsent]

theorem batchTranslate_eq_reconstruct (texts : List String) (o : AiOracle)
    (tv : List String) (hlen : texts.length ≠ 0)
    (hsent : (sentItems texts).length ≠ 0)
    (h : o.batchPrimary = some tv ∨
      o.batchPrimary = none ∧ o.batchBackup = some tv) :
    batchTranslate texts o = reconstruct texts tv 0 := by
  unfold batchTranslate
  rw [if_neg hlen, if_neg hsent]
  rcases h with h | ⟨h1, h2⟩
  · rw [h]
  · rw [h1, h2]

theorem batchTranslate_eq_itemFallback (texts : List String) (o : AiOracle)
    (hlen : texts.length ≠ 0) (hsent : (sentItems texts).length ≠ 0)
    (hp : o.batchPrimary = none) (hb : o.batchBackup = none) :
    batchTranslate texts o = itemFallback o 0 texts := by
  unfold batchTranslate
  rw [if_neg hlen, if_neg hsent, hp, hb]

/-! ### Claim theorems: translation -/

/-- C3: for every input list (including the empty list) and every
behaviour of the remote service, `batchTranslate` returns a list of the
same length, and each output position is determined by the input item at
that same position — the original item order is preserved and no item is
dropped.  On a successful primary or backup batch, position `i` holds its
original when skipped, and otherwise `pickTranslated` of the response
entry at its filtered index — which is the original whenever that entry
is missing, empty or blank (the untranslated original is substituted in
place for an item whose translation failed).  When both batch tiers fail,
position `i` holds `translateText` of its own item with that item's
per-item oracle outcomes — again the original when both per-item tiers
fail for an attempted (non-blank) item. -/
theorem c3_batchTranslate_length_order_substitution (texts : List String)
    (o : AiOracle) :
    (batchTranslate texts o).length = texts.length ∧
    (∀ tv : List String,
      o.batchPrimary = some tv ∨
        o.batchPrimary = none ∧ o.batchBackup = some tv →
      ∀ (i : Nat) (t : String), texts.get? i = some t →
        (batchTranslate texts o).get? i =
          some (if skipHeuristic t then t
            else pickTranslated tv (prevSent texts i) t) ∧
        (tv.get? (prevSent texts i) = none ∨
            (∃ s, tv.get? (prevSent texts i) = some s ∧ isBlank s = true) →
          (batchTranslate texts o).get? i = some t)) ∧
    (o.batchPrimary = none → o.batchBackup = none →
      ∀ (i : Nat) (t : String), texts.get? i = some t →
        (sentItems texts = [] → (batchTranslate texts o).get? i = some t) ∧
        (sentItems texts ≠ [] →
          (batchTranslate texts o).get? i =
            some (translateText t (o.itemPrimary i) (o.itemBackup i)) ∧
          (o.itemPrimary i = none → o.itemBackup i = none →
            isBlank t = false →
            (batchTranslate texts o).get? i = some t))) := by
  refine ⟨batchTranslate_length_eq texts o, ?_, ?_⟩
  · intro tv htv i t hget
    by_cases hlen : texts.length = 0
    · rw [List.length_eq_zero.mp hlen] at hget
      simp at hget
    · by_cases hsent : (sentItems texts).length = 0
      · have hself := batchTranslate_eq_self texts o hlen hsent
        have hskip : skipHeuristic t = true :=
          skip_all_of_sent_nil (List.length_eq_zero.mp hsent) t
            (List.get?_mem hget)
        rw [hself, hget, if_pos hskip]
        exact ⟨rfl, fun _ => rfl⟩
      · have hrec := batchTranslate_eq_reconstruct texts o tv hlen hsent htv
        have hpos := reconstruct_get?_eq texts tv 0 i t hget
        rw [Nat.zero_add] at hpos
        rw [hrec, hpos]
        refine ⟨rfl, ?_⟩
        intro hfail
        by_cases hskip : skipHeuristic t = true
        · rw [if_pos hskip]
        · rw [if_neg hskip, pickTranslated_fail tv (prevSent texts i) t hfail]
  · intro hp hb i t hget
    by_cases hlen : texts.length = 0
    · rw [List.length_eq_zero.mp hlen] at hget
      simp at hget
    · constructor
      · intro hnil
        rw [batchTranslate_eq_self texts o hlen (by rw [hnil]; rfl)]
        exact hget
      · intro hne
        have hsent : (sentItems texts).length ≠ 0 := fun h0 =>
          hne (List.length_eq_zero.mp h0)
        have hfall := batchTranslate_eq_itemFallback texts o hlen hsent hp hb
        have hpos := itemFallback_get?_eq o texts 0 i t hget
        rw [Nat.zero_add] at hpos
        rw [hfall, hpos]
        refine ⟨rfl, ?_⟩
        intro hip hib hbl
        rw [hip, hib, translateText_none_none t hbl]

/-- Witness for C3: input `["黑色", "مرحبا", "红色"]` with a primary batch
response `["أسود", ""]` — the output has length 3; position 0 receives
its delivered translation, the skipped Arabic item at position 1 is
unchanged, and position 2, whose response entry is empty (a failed item),
gets its untranslated original back in place; with every tier failing,
`["白色"]` comes back as itself. -/
theorem c3_witness :
    (batchTranslate ["黑色", "مرحبا", "红色"]
        ⟨some ["أسود", ""], none, fun _ => none, fun _ => none⟩).length = 3 ∧
    (batchTranslate ["黑色", "مرحبا", "红色"]
        ⟨some ["أسود", ""], none, fun _ => none, fun _ => none⟩).get? 0 =
      some "أسود" ∧
    (batchTranslate ["黑色", "مرحبا", "红色"]
        ⟨some ["أسود", ""], none, fun _ => none, fun _ => none⟩).get? 1 =
      some "مرحبا" ∧
    (batchTranslate ["黑色", "مرحبا", "红色"]
        ⟨some ["أسود", ""], none, fun _ => none, fun _ => none⟩).get? 2 =
      some "红色" ∧
    (batchTranslate ["白色"]
        ⟨none, none, fun _ => none, fun _ => none⟩).get? 0 = some "白色" := by
  obtain ⟨h1, h2, _⟩ := c3_batchTranslate_length_order_substitution
    ["黑色", "مرحبا", "红色"]
    ⟨some ["أسود", ""], none, fun _ => none, fun _ => none⟩
  refine ⟨by simpa using h1, ?_, ?_,
    (h2 ["أسود", ""] (Or.inl rfl) 2 "红色" rfl).2 (Or.inr ⟨"", by decide, rfl⟩),
    ?_⟩
  · rw [(h2 ["أسود", ""] (Or.inl rfl) 0 "黑色" rfl).1]
    decide
  · rw [(h2 ["أسود", ""] (Or.inl rfl) 1 "مرحبا" rfl).1]
    decide
  · have h3 := (c3_batchTranslate_length_order_substitution ["白色"]
      ⟨none, none, fun _ => none, fun _ => none⟩).2.2 rfl rfl 0 "白色" rfl
    exact ((h3.2 (by decide)).2 rfl rfl (by decide))

/-- Counterexample to C4: the item `"黑ا"` is non-empty and only 1 of its
2 characters is Arabic — no majority — so the claim says it is sent to
the remote service; the code skips any item containing a single Arabic
character, so nothing is sent. -/
theorem c4_counterexample :
    specSentRule ["黑ا"] = ["黑ا"] ∧ sentItems ["黑ا"] = [] := by decide

/-- C4 (amended): `batchTranslate` sends exactly the items that are
non-blank and contain no Arabic character at all (one Arabic character
suffices to skip, majority is not required); when the primary or backup
batch request succeeds, every skipped item is returned unchanged in its
original position. -/
theorem c4_sent_and_skipped_unchanged (texts : List String) (o : AiOracle) :
    sentItems texts = texts.filter (fun t => !(isBlank t || containsArabic t)) ∧
    (o.batchPrimary.isSome = true ∨ o.batchBackup.isSome = true →
      ∀ (i : Nat) (t : String), texts.get? i = some t → skipHeuristic t = true →
        (batchTranslate texts o).get? i = some t) := by
  constructor
  · exact List.filter_congr fun t _ => by rw [skipHeuristic_eq]
  · intro hsome i t hget hskip
    unfold batchTranslate
    split
    · next h => rw [List.length_eq_zero.mp h] at hget; simp at hget
    · split
      · exact hget
      · cases hp : o.batchPrimary with
        | some tv => exact reconstruct_get?_of_skip texts tv 0 i t hget hskip
        | none =>
            cases hb : o.batchBackup with
            | some tv => exact reconstruct_get?_of_skip texts tv 0 i t hget hskip
            | none =>
                rw [hp, hb] at hsome
                simp at hsome

/-- Witness for C4: with input `["مرحبا", "黑色"]` only `"黑色"` is sent
(`"مرحبا"` is Arabic and skipped), and on a successful primary batch the
skipped item comes back unchanged at position 0. -/
theorem c4_witness :
    sentItems ["مرحبا", "黑色"] = ["黑色"] ∧
    (batchTranslate ["مرحبا", "黑色"]
        ⟨some ["أسود"], none, fun _ => none, fun _ => none⟩).get? 0 =
      some "مرحبا" := by
  obtain ⟨h1, h2⟩ := c4_sent_and_skipped_unchanged ["مرحبا", "黑色"]
    ⟨some ["أسود"], none, fun _ => none, fun _ => none⟩
  refine ⟨?_, h2 (Or.inl rfl) 0 "مرحبا" rfl (by decide)⟩
  rw [h1]
  decide

/-- C5: when every attempt against both the primary and the backup model
fails, `translateText` returns the original text, and `batchTranslate` —
whose batch tiers failed too, reaching the per-item fallback — returns
the original text at the position of every item it actually attempted to
translate; both functions are total, so no error reaches the caller. -/
theorem c5_total_failure_returns_original (text : String) (texts : List String)
    (o : AiOracle) (hblank : isBlank text = false)
    (hp : o.batchPrimary = none) (hb : o.batchBackup = none)
    (hitems : ∀ j, o.itemPrimary j = none ∧ o.itemBackup j = none) :
    translateText text none none = text ∧
    (∀ (i : Nat) (t : String), texts.get? i = some t → skipHeuristic t = false →
      (batchTranslate texts o).get? i = some t) := by
  refine ⟨translateText_none_none text hblank, ?_⟩
  intro i t hget hskip
  unfold batchTranslate
  split
  · next h => rw [List.length_eq_zero.mp h] at hget; simp at hget
  · split
    · exact hget
    · rw [hp, hb]
      rw [itemFallback_get?_none o hitems texts 0 i t hget]
      rw [translateText_none_none t (not_blank_of_not_skip hskip)]

/-- Witness for C5: with all oracle outcomes failing, `"黑色"` comes back
unchanged from both `translateText` and `batchTranslate`. -/
theorem c5_witness :
    translateText "黑色" none none = "黑色" ∧
    (batchTranslate ["黑色"] ⟨none, none, fun _ => none, fun _ => none⟩).get? 0 =
      some "黑色" := by
  obtain ⟨h1, h2⟩ := c5_total_failure_returns_original "黑色" ["黑色"]
    ⟨none, none, fun _ => none, fun _ => none⟩ (by decide) rfl rfl
    (fun _ => ⟨rfl, rfl⟩)
  exact ⟨h1, h2 0 "黑色" rfl (by decide)⟩

/-- Witness for C10: positive main-page price 10 gives 2000 regardless of
options; absent main-page price with options [0, 30, 20, -5] gives the
minimum positive price 20; absent main-page price with no positive option
price gives 0. -/
theorem c10_finalGeneralPrice_priority_witness :
    (finalGeneralPrice (some 10) [5, 30] = 10 * 200) ∧
    (finalGeneralPrice none [0, 30, 20, -5] ∈
        ([0, 30, 20, -5] : List ℚ).filter (fun q => 0 < q) ∧
      ∀ q ∈ ([0, 30, 20, -5] : List ℚ).filter (fun q => 0 < q),
        finalGeneralPrice none [0, 30, 20, -5] ≤ q) ∧
    (finalGeneralPrice none [0, -5] = 0) := by
  refine ⟨(c10_finalGeneralPrice_priority (some 10) [5, 30]).1 10 rfl (by norm_num),
    ((c10_finalGeneralPrice_priority none [0, 30, 20, -5]).2 (Or.inl rfl)).1 ?_,
    ((c10_finalGeneralPrice_priority none [0, -5]).2 (Or.inl rfl)).2 ?_⟩
  · norm_num
    simp
  · norm_num

/-! ### Lemmas about substring containment and the URL query parser -/

theorem isPrefixList_append : ∀ (l post : List Char), isPrefixList l (l ++ post) = true
  | [], _ => rfl
  | a :: as, post => by
      unfold isPrefixList
      simp [isPrefixList_append as post]

theorem containsSeg_nil_needle : ∀ (l : List Char), containsSeg l [] = true
  | [] => rfl
  | _ :: t => by
      unfold containsSeg
      simp [containsSeg_nil_needle t, isPrefixList]

theorem containsSeg_of_parts :
    ∀ (pre needle post : List Char), containsSeg (pre ++ (needle ++ post)) needle = true
  | [], needle, post => by
      cases needle with
      | nil => simpa using containsSeg_nil_needle post
      | cons n ns =>
          have h1 : isPrefixList (n :: ns) (n :: (ns ++ post)) = true := by
            unfold isPrefixList
            simp [isPrefixList_append ns post]
          show containsSeg (n :: (ns ++ post)) (n :: ns) = true
          unfold containsSeg
          simp [h1]
  | c :: pre', needle, post => by
      unfold containsSeg
      simp [containsSeg_of_parts pre' needle post]

theorem strContains_of_parts (hay needle : String) (pre post : List Char)
    (h : hay.toList = pre ++ (needle.toList ++ post)) :
    strContains hay needle = true := by
  unfold strContains
  rw [h]
  exact containsSeg_of_parts pre needle.toList post

/-- The head piece of `splitAmp` is a prefix of the input. -/
theorem splitAmp_head :
    ∀ (l : List Char), ∃ h t post, splitAmp l = h :: t ∧ l = h ++ post
  | [] => ⟨[], [], [], rfl, rfl⟩
  | c :: rest => by
      obtain ⟨h, t, post, hsplit, heq⟩ := splitAmp_head rest
      by_cases hc : c = '&'
      · exact ⟨[], splitAmp rest, c :: rest, by simp [splitAmp, hc], rfl⟩
      · refine ⟨c :: h, t, post, ?_, by simp [heq]⟩
        simp [splitAmp, hc, hsplit]

/-- Every piece of `splitAmp` occurs contiguously in the input. -/
theorem splitAmp_mem_parts :
    ∀ (l p : List Char), p ∈ splitAmp l → ∃ pre post, l = pre ++ (p ++ post)
  | [], p, hp => by
      simp [splitAmp] at hp
      exact ⟨[], [], by simp [hp]⟩
  | c :: rest, p, hp => by
      by_cases hc : c = '&'
      · simp only [splitAmp, if_pos hc] at hp
        rcases List.mem_cons.mp hp with h | h
        · exact ⟨[], c :: rest, by simp [h]⟩
        · obtain ⟨pre, post, heq⟩ := splitAmp_mem_parts rest p h
          exact ⟨c :: pre, post, by simp [heq]⟩
      · obtain ⟨h, t, post₀, hsplit, heq₀⟩ := splitAmp_head rest
        simp only [splitAmp, if_neg hc, hsplit] at hp
        rcases List.mem_cons.mp hp with hph | hph
        · exact ⟨[], post₀, by simp [hph, heq₀]⟩
        · obtain ⟨pre, post, heq⟩ := splitAmp_mem_parts rest p (by rw [hsplit]; exact List.mem_cons_of_mem _ hph)
          exact ⟨c :: pre, post, by simp [heq]⟩

theorem afterQuestion_parts :
    ∀ (l q : List Char), afterQuestion l = some q → ∃ pre, l = pre ++ '?' :: q
  | [], q, h => by simp [afterQuestion] at h
  | c :: t, q, h => by
      by_cases hc : c = '?'
      · simp only [afterQuestion, if_pos hc] at h
        injection h with h
        exact ⟨[], by simp [hc, h]⟩
      · simp only [afterQuestion, if_neg hc] at h
        obtain ⟨pre, heq⟩ := afterQuestion_parts t q h
        exact ⟨c :: pre, by simp [heq]⟩

/-- Dropping while not `'='` either drops everything or stops on an `'='`. -/
theorem dropWhile_eq_sign :
    ∀ (l : List Char), l.dropWhile (fun c => c ≠ '=') = [] ∨
      ∃ v, l.dropWhile (fun c => c ≠ '=') = '=' :: v
  | [] => Or.inl rfl
  | a :: t => by
      by_cases ha : a = '='
      · refine Or.inr ⟨t, ?_⟩
        simp [List.dropWhile, ha]
      · simpa [List.dropWhile, ha] using dropWhile_eq_sign t

/-- A successful `findGoodsId` comes from a member parameter of the form
`goods_id=<value>`. -/
theorem findGoodsId_parts :
    ∀ (ps : List (List Char)) (v : List Char), findGoodsId ps = some v →
      ∃ p ∈ ps, p = "goods_id".toList ++ '=' :: v
  | [], v, h => by simp [findGoodsId] at h
  | p :: ps, v, h => by
      by_cases hk : keyOf p = "goods_id".toList
      · simp only [findGoodsId, if_pos hk] at h
        have hval : valOf p = v ∧ valOf p ≠ [] := by
          rcases hvp : valOf p with _ | ⟨a, t⟩ <;> rw [hvp] at h
          · simp at h
          · simp only [Option.some.injEq] at h
            exact ⟨h, by simp⟩
        obtain ⟨hveq, hvne⟩ := hval
        have hdne : p.dropWhile (fun c => c ≠ '=') ≠ [] := by
          intro h0
          apply hvne
          unfold valOf
          rw [h0]
        obtain ⟨v₀, hdrop⟩ := (dropWhile_eq_sign p).resolve_left hdne
        have hv₀ : v₀ = v := by
          have hvv : valOf p = v₀ := by unfold valOf; rw [hdrop]
          rw [← hvv, hveq]
        refine ⟨p, List.mem_cons_self p ps, ?_⟩
        have hp : p = p.takeWhile (fun c => c ≠ '=') ++
            p.dropWhile (fun c => c ≠ '=') :=
          (List.takeWhile_append_dropWhile _ _).symm
        rw [hp, hdrop, hv₀]
        unfold keyOf at hk
        rw [hk]
      · simp only [findGoodsId, if_neg hk] at h
        obtain ⟨p', hp', heq⟩ := findGoodsId_parts ps v h
        exact ⟨p', List.mem_cons_of_mem _ hp', heq⟩

/-- Whenever `getGoodsIdFromUrl` extracts an id, the URL itself contains
the literal text `goods_id=<id>` — which is exactly what the duplicate
pre-check looks for inside stored purchase URLs. -/
theorem url_contains_goodsId (url gid : String)
    (h : getGoodsIdFromUrl url = some gid) :
    strContains url ("goods_id=" ++ gid) = true := by
  unfold getGoodsIdFromUrl at h
  split at h
  · simp at h
  · rcases hq : afterQuestion (url.toList.takeWhile (fun c => c ≠ '#')) with _ | q
    · rw [hq] at h; simp at h
    · rw [hq] at h
      simp only [Option.map_eq_some'] at h
      obtain ⟨v, hfind, hgid⟩ := h
      obtain ⟨p, hp, hpeq⟩ := findGoodsId_parts (splitAmp q) v hfind
      obtain ⟨pre₁, post₁, hq₁⟩ := splitAmp_mem_parts q p hp
      obtain ⟨pre₂, hq₂⟩ := afterQuestion_parts _ q hq
      have hurl : url.toList = url.toList.takeWhile (fun c => c ≠ '#') ++
          url.toList.dropWhile (fun c => c ≠ '#') :=
        (List.takeWhile_append_dropWhile _ _).symm
      have hneedle : ("goods_id=" ++ gid).toList = "goods_id".toList ++ '=' :: v := by
        rw [← hgid]
        rfl
      apply strContains_of_parts url ("goods_id=" ++ gid)
        (pre₂ ++ '?' :: pre₁)
        (post₁ ++ url.toList.dropWhile (fun c => c ≠ '#'))
      rw [hneedle]
      conv_lhs => rw [hurl, hq₂, hq₁, hpeq]
      simp

/-- A `processProduct` step grows the store by at most one record. -/
theorem processProduct_length_le (db : List String) (url : String) (ok : Bool) :
    (processProduct db url ok).length ≤ db.length + 1 := by
  unfold processProduct saveProductToDb
  split
  · omega
  · split
    · split
      · omega
      · split
        · omega
        · simp
    · omega

/-- A `processProduct` step either leaves the store unchanged or appends exactly
the snapshot's URL. -/
theorem processProduct_cases (db : List String) (url : String) (ok : Bool) :
    processProduct db url ok = db ∨ processProduct db url ok = db ++ [url] := by
  unfold processProduct saveProductToDb
  split
  · exact Or.inl rfl
  · split
    · split
      · exact Or.inl rfl
      · split
        · exact Or.inl rfl
        · exact Or.inr rfl
    · exact Or.inl rfl

/-! ### Claim theorems: deduplication -/

/-- C6: when some persisted record's purchase URL contains the
`goods_id=<id>` extracted from the new snapshot's URL, the product is
skipped with the store left untouched (a silent skip — `processProduct`
returns normally); consequently, processing two snapshots whose URLs
resolve to the same goods_id creates at most one record. -/
theorem c6_goodsId_dedup (db : List String) (url₁ url₂ gid : String)
    (ok₁ ok₂ : Bool) :
    (getGoodsIdFromUrl url₁ = some gid →
      (∃ u ∈ db, strContains u ("goods_id=" ++ gid) = true) →
      processProduct db url₁ ok₁ = db) ∧
    (getGoodsIdFromUrl url₁ = some gid → getGoodsIdFromUrl url₂ = some gid →
      (processProduct (processProduct db url₁ ok₁) url₂ ok₂).length ≤
        db.length + 1) := by
  have hskip : ∀ (d : List String) (u : String) (k : Bool) (g : String),
      getGoodsIdFromUrl u = some g →
      (∃ r ∈ d, strContains r ("goods_id=" ++ g) = true) →
      processProduct d u k = d := by
    intro d u k g hg ⟨r, hr, hc⟩
    have hdup : goodsIdDuplicate d u = true := by
      unfold goodsIdDuplicate
      rw [hg]
      exact List.any_eq_true.mpr ⟨r, hr, hc⟩
    unfold processProduct
    rw [if_pos hdup]
  refine ⟨hskip db url₁ ok₁ gid, ?_⟩
  intro h₁ h₂
  rcases processProduct_cases db url₁ ok₁ with hcase | hcase
  · rw [hcase]
    exact processProduct_length_le db url₂ ok₂
  · rw [hcase]
    have hstop : processProduct (db ++ [url₁]) url₂ ok₂ = db ++ [url₁] :=
      hskip (db ++ [url₁]) url₂ ok₂ gid h₂
        ⟨url₁, by simp, url_contains_goodsId url₁ gid h₁⟩
    rw [hstop]
    simp

/-- Witness for C6: the store already holds a record containing
`goods_id=123`, and a snapshot URL resolving to goods_id 123 is skipped;
two fresh snapshots sharing goods_id 77 create one record. -/
theorem c6_witness :
    processProduct ["http://p.com/g.html?goods_id=123&refer=ad"]
        "http://m.p.com/goods.html?goods_id=123" true =
      ["http://p.com/g.html?goods_id=123&refer=ad"] ∧
    (processProduct
        (processProduct [] "http://a.com/g.html?goods_id=77" true)
        "http://a.com/g.html?goods_id=77&from=share" true).length ≤ 0 + 1 := by
  refine ⟨(c6_goodsId_dedup ["http://p.com/g.html?goods_id=123&refer=ad"]
      "http://m.p.com/goods.html?goods_id=123" "x" "123" true true).1
      (by decide) ⟨"http://p.com/g.html?goods_id=123&refer=ad", by decide⟩,
    ?_⟩
  have h := (c6_goodsId_dedup ([] : List String) "http://a.com/g.html?goods_id=77"
      "http://a.com/g.html?goods_id=77&from=share" "77" true true).2
      (by decide) (by decide)
  simpa using h

/-! ### Claim theorems: option labels -/

/-- Counterexample to C7: two variant options that both clean to the
label `"白"` are NOT both retained — the second is dropped by the
dedup-by-cleaned-label check (`options.some(o => o.color === colorName)`),
so only one survives. -/
theorem c7_counterexample :
    collectOptions ["白", "白"] = ["白"] ∧
    collectOptions ["白", "白"] ≠ ["白", "白"] := by decide

/-- C7 (amended): a label cleaning to the single Chinese character `"白"`
is retained and a label cleaning to the single non-Chinese character
`"a"` is discarded; of two options both cleaning to `"白"`, only the
first is retained because options are deduplicated by cleaned label. -/
theorem c7_option_filter :
    collectOptions ["白"] = ["白"] ∧
    collectOptions ["a"] = [] ∧
    collectOptions ["白", "白"] = ["白"] := by decide

/-! ### Claim theorems: block flag and loop recovery -/

/-- Counterexample to C8: an HTTP 403, 424 or 429 response status never
sets the process-wide block flag — the `response` listener only reacts to
429, and only by bumping the rate-limit counters. -/
theorem c8_counterexample :
    (onResponse ⟨false, 0, 60000⟩ 403).hasPageError = false ∧
    (onResponse ⟨false, 0, 60000⟩ 424).hasPageError = false ∧
    (onResponse ⟨false, 0, 60000⟩ 429).hasPageError = false ∧
    (onResponse ⟨false, 0, 60000⟩ 429).rateLimitBackoffMs = 120000 := by decide

/-- C8 (amended): the block flag is set by a page-level error whose
message contains "424" or "403", or by a verification/punish/captcha
keyword in a navigated address (HTTP response statuses do not set it);
whenever the flag is set, the next main-loop iteration loads a fresh
cookie profile, force-navigates to the listing root and clears the flag,
attempting no extraction; with the flag clear the iteration proceeds to
extraction. -/
theorem c8_block_flag_recovery (st : PageState) (msg url : String) :
    (strContains msg "424" = true ∨ strContains msg "403" = true →
      (onPageError st msg).hasPageError = true) ∧
    (strContains url "verification" = true ∨ strContains url "punish" = true ∨
        strContains url "captcha" = true →
      (onFrameNavigated st url).hasPageError = true) ∧
    (st.hasPageError = true →
      (loopIterationHead st).1.hasPageError = false ∧
      (loopIterationHead st).2 = [LoopAct.loadCookies, LoopAct.navigateRoot] ∧
      LoopAct.extractAttempt ∉ (loopIterationHead st).2) ∧
    (st.hasPageError = false →
      (loopIterationHead st).2 = [LoopAct.extractAttempt]) := by
  refine ⟨?_, ?_, ?_, ?_⟩
  · intro h
    rcases h with h | h <;> simp [onPageError, h]
  · intro h
    rcases h with h | h | h <;> simp [onFrameNavigated, h]
  · intro h
    simp [loopIterationHead, h]
  · intro h
    simp [loopIterationHead, h]

/-- Witness for C8: a page error mentioning 424 sets the flag, a captcha
address sets the flag, and an iteration starting with the flag set clears
it and performs rotation plus root navigation, with no extraction
attempt. -/
theorem c8_witness :
    (onPageError ⟨false, 0, 60000⟩ "Error: got 424 from server").hasPageError = true ∧
    (onFrameNavigated ⟨false, 0, 60000⟩
        "https://m.site.com/captcha_verify?x=1").hasPageError = true ∧
    (loopIterationHead ⟨true, 0, 60000⟩).1.hasPageError = false ∧
    (loopIterationHead ⟨true, 0, 60000⟩).2 =
      [LoopAct.loadCookies, LoopAct.navigateRoot] := by
  refine ⟨(c8_block_flag_recovery ⟨false, 0, 60000⟩
      "Error: got 424 from server" "u").1 (Or.inl (by decide)),
    (c8_block_flag_recovery ⟨false, 0, 60000⟩ "m"
      "https://m.site.com/captcha_verify?x=1").2.1 (Or.inr (Or.inr (by decide))),
    ?_, ?_⟩
  · exact ((c8_block_flag_recovery ⟨true, 0, 60000⟩ "m" "u").2.2.1 rfl).1
  · exact ((c8_block_flag_recovery ⟨true, 0, 60000⟩ "m" "u").2.2.1 rfl).2.1

/-! ### Claim theorems: loop termination and the allow_list error -/

/-- C9 (code-bug evidence): `saveProductToDb`'s inner code rethrows the
database allow_list error with the stated intent of stopping the scraper
("Rethrow to stop the scraper gracefully", line 980; "Stop if blocked",
line 1500), but the function's own outer catch (line 1196) swallows every
such error, and the main loop's iteration catch (line 2861) swallows the
`scrapeProduct` path too — so an allow_list failure leaves `isRunning`
true and the traversal continues.  Only the product limit and SIGINT stop
the loop. -/
theorem c9_allowList_swallowed :
    saveProductToDbInner (Except.error "restricted by allow_list") (Except.ok 1) =
      Except.error "restricted by allow_list" ∧
    saveProductToDbResult (Except.error "restricted by allow_list") (Except.ok 1) =
      Except.ok () ∧
    (loopIteration ⟨true, 0, 0⟩
        (IterOutcome.errorThrown "restricted by allow_list") false).isRunning = true ∧
    (loopIteration ⟨true, 44, 0⟩ IterOutcome.scraped false).isRunning = false ∧
    (loopIteration ⟨true, 0, 0⟩ IterOutcome.notScraped true).isRunning = false :=
  ⟨rfl, rfl, rfl, rfl, rfl⟩

end Scraper
